import Mathlib

/-!
Verification of the `luminous-ttv-ext` MV3 service worker
(`src/ts/service_worker.js`). The development embeds the worker's
declarativeNetRequest rule construction, its relay health probe, its
address normalisation and its reconcile event handlers, and settles the
frozen claims about them.

The regular-expression filters of the source are modelled by a small
regular-expression calculus `Rx` over `Char` with predicate character
classes, together with a Brzozowski-derivative matcher. Every
`regexFilter` string literal in the source is transcribed into an `Rx`
term next to its rule.
-/

namespace Luminous

/-- Regular expressions over `Char` with predicate character classes,
enough to express the filters appearing in the source. -/
inductive Rx where
  | fail : Rx
  | eps : Rx
  | cls : (Char → Bool) → Rx
  | alt : Rx → Rx → Rx
  | cat : Rx → Rx → Rx
  | star : Rx → Rx

namespace Rx

/-- Literal single character. -/
def chr (c : Char) : Rx := cls (fun d => d == c)

/-- Literal word, one `chr` per character. -/
def strL : List Char → Rx
  | [] => eps
  | c :: cs => cat (chr c) (strL cs)

/-- Literal word from a string. -/
def strr (s : String) : Rx := strL s.data

/-- `r?` : zero or one occurrence. -/
def opt (r : Rx) : Rx := alt eps r

/-- `[p]+` : one or more characters satisfying `p`. -/
def plus1 (p : Char → Bool) : Rx := cat (cls p) (star (cls p))

/-- Does the expression accept the empty word? -/
def matchEpsilon : Rx → Bool
  | fail => false
  | eps => true
  | cls _ => false
  | alt P Q => P.matchEpsilon || Q.matchEpsilon
  | cat P Q => P.matchEpsilon && Q.matchEpsilon
  | star _ => true

/-- Brzozowski derivative with respect to one character. -/
def deriv : Rx → Char → Rx
  | fail, _ => fail
  | eps, _ => fail
  | cls p, a => if p a then eps else fail
  | alt P Q, a => alt (P.deriv a) (Q.deriv a)
  | cat P Q, a => if P.matchEpsilon then alt (cat (P.deriv a) Q) (Q.deriv a) else cat (P.deriv a) Q
  | star P, a => cat (P.deriv a) (star P)

/-- Full (anchored at both ends) match of a word. -/
def rmatch : Rx → List Char → Bool
  | P, [] => P.matchEpsilon
  | P, a :: as => rmatch (P.deriv a) as

/-- Does some (possibly empty) initial segment of the word match?  This is
the substring semantics a start-anchored, end-unanchored filter has. -/
def rmatchPre : Rx → List Char → Bool
  | P, [] => P.matchEpsilon
  | P, a :: as => P.matchEpsilon || rmatchPre (P.deriv a) as

theorem rmatch_nil (P : Rx) : rmatch P [] = P.matchEpsilon := rfl

theorem rmatch_cons (P : Rx) (a : Char) (as : List Char) :
    rmatch P (a :: as) = rmatch (P.deriv a) as := rfl

theorem fail_rmatch (x : List Char) : rmatch fail x = false := by
  induction x with
  | nil => rfl
  | cons a as ih => simpa [rmatch, deriv] using ih

theorem eps_rmatch_iff (x : List Char) : rmatch eps x = true ↔ x = [] := by
  cases x with
  | nil => simp [rmatch, matchEpsilon]
  | cons a as => simp [rmatch, deriv, fail_rmatch]

theorem cls_rmatch_iff (p : Char → Bool) (x : List Char) :
    rmatch (cls p) x = true ↔ ∃ c, x = [c] ∧ p c = true := by
  cases x with
  | nil => simp [rmatch, matchEpsilon]
  | cons a as =>
    rw [rmatch_cons]
    show rmatch (if p a then eps else fail) as = true ↔ _
    by_cases h : p a = true
    · rw [if_pos h, eps_rmatch_iff]
      constructor
      · rintro rfl; exact ⟨a, rfl, h⟩
      · rintro ⟨c, hc, _⟩
        exact (List.cons_eq_cons.mp hc).2
    · rw [if_neg h, fail_rmatch]
      refine ⟨fun hf => absurd hf Bool.false_ne_true, ?_⟩
      rintro ⟨c, hc, hpc⟩
      obtain ⟨rfl, -⟩ := List.cons_eq_cons.mp hc
      exact absurd hpc h

theorem alt_rmatch_iff (P Q : Rx) (x : List Char) :
    rmatch (alt P Q) x = true ↔ rmatch P x = true ∨ rmatch Q x = true := by
  induction x generalizing P Q with
  | nil => simp [rmatch, matchEpsilon]
  | cons a as ih =>
    rw [rmatch_cons, rmatch_cons, rmatch_cons]
    exact ih _ _

theorem cat_rmatch_iff (P Q : Rx) (x : List Char) :
    rmatch (cat P Q) x = true ↔
      ∃ t u, x = t ++ u ∧ rmatch P t = true ∧ rmatch Q u = true := by
  induction x generalizing P Q with
  | nil =>
    simp only [rmatch, matchEpsilon, Bool.and_eq_true]
    constructor
    · rintro ⟨hP, hQ⟩
      exact ⟨[], [], rfl, hP, hQ⟩
    · rintro ⟨t, u, h, hP, hQ⟩
      obtain ⟨rfl, rfl⟩ := List.append_eq_nil.mp h.symm
      exact ⟨hP, hQ⟩
  | cons a as ih =>
    rw [rmatch_cons]
    show rmatch (if P.matchEpsilon then alt (cat (P.deriv a) Q) (Q.deriv a)
        else cat (P.deriv a) Q) as = true ↔ _
    by_cases hE : P.matchEpsilon
    · rw [if_pos hE, alt_rmatch_iff, ih]
      constructor
      · rintro (⟨t, u, h, hP, hQ⟩ | h)
        · exact ⟨a :: t, u, by simp [h], by rw [rmatch_cons]; exact hP, hQ⟩
        · exact ⟨[], a :: as, rfl, hE, by rw [rmatch_cons]; exact h⟩
      · rintro ⟨t, u, h, hP, hQ⟩
        cases t with
        | nil =>
          right
          rw [List.nil_append] at h
          subst h
          rw [rmatch_cons] at hQ
          exact hQ
        | cons b t =>
          left
          obtain ⟨rfl, rfl⟩ := List.cons_eq_cons.mp h
          rw [rmatch_cons] at hP
          exact ⟨t, u, rfl, hP, hQ⟩
    · rw [if_neg hE, ih]
      constructor
      · rintro ⟨t, u, h, hP, hQ⟩
        exact ⟨a :: t, u, by simp [h], by rw [rmatch_cons]; exact hP, hQ⟩
      · rintro ⟨t, u, h, hP, hQ⟩
        cases t with
        | nil =>
          rw [List.nil_append] at h
          subst h
          rw [rmatch_nil] at hP
          exact absurd hP (by simpa using hE)
        | cons b t =>
          obtain ⟨rfl, rfl⟩ := List.cons_eq_cons.mp h
          rw [rmatch_cons] at hP
          exact ⟨t, u, rfl, hP, hQ⟩

theorem cat_eps_rmatch_iff (Q : Rx) (x : List Char) :
    rmatch (cat eps Q) x = true ↔ rmatch Q x = true := by
  rw [cat_rmatch_iff]
  constructor
  · rintro ⟨t, u, h, hP, hQ⟩
    rw [eps_rmatch_iff] at hP
    subst hP
    rw [List.nil_append] at h
    rw [h]
    exact hQ
  · intro h
    exact ⟨[], x, rfl, rfl, h⟩

theorem star_cls_rmatch_iff (p : Char → Bool) (x : List Char) :
    rmatch (star (cls p)) x = true ↔ ∀ c ∈ x, p c = true := by
  induction x with
  | nil => simp [rmatch, matchEpsilon]
  | cons a as ih =>
    rw [rmatch_cons]
    show rmatch (cat (if p a then eps else fail) (star (cls p))) as = true ↔ _
    by_cases h : p a = true
    · rw [if_pos h, cat_eps_rmatch_iff, ih]
      simp [h]
    · rw [if_neg h]
      constructor
      · intro hc
        obtain ⟨t, u, -, hP, -⟩ := (cat_rmatch_iff _ _ _).mp hc
        rw [fail_rmatch] at hP
        exact absurd hP Bool.false_ne_true
      · intro hall
        exact absurd (hall a (by simp)) h

theorem plus1_rmatch_iff (p : Char → Bool) (x : List Char) :
    rmatch (plus1 p) x = true ↔ x ≠ [] ∧ ∀ c ∈ x, p c = true := by
  unfold plus1
  rw [cat_rmatch_iff]
  constructor
  · rintro ⟨t, u, h, hP, hQ⟩
    obtain ⟨c, rfl, hc⟩ := (cls_rmatch_iff _ _).mp hP
    rw [star_cls_rmatch_iff] at hQ
    subst h
    refine ⟨by simp, ?_⟩
    intro d hd
    rcases List.mem_cons.mp hd with rfl | hd
    · exact hc
    · exact hQ d hd
  · rintro ⟨hne, hall⟩
    cases x with
    | nil => exact absurd rfl hne
    | cons a as =>
      refine ⟨[a], as, rfl, ?_, ?_⟩
      · exact (cls_rmatch_iff _ _).mpr ⟨a, rfl, hall a (by simp)⟩
      · rw [star_cls_rmatch_iff]
        intro c hc
        exact hall c (List.mem_cons_of_mem _ hc)

theorem strL_rmatch_iff (w x : List Char) :
    rmatch (strL w) x = true ↔ x = w := by
  induction w generalizing x with
  | nil => exact eps_rmatch_iff x
  | cons c cs ih =>
    show rmatch (cat (chr c) (strL cs)) x = true ↔ _
    rw [cat_rmatch_iff]
    constructor
    · rintro ⟨t, u, h, hP, hQ⟩
      obtain ⟨d, rfl, hd⟩ := (cls_rmatch_iff _ _).mp hP
      rw [ih] at hQ
      subst hQ
      subst h
      simpa using eq_of_beq hd
    · rintro rfl
      exact ⟨[c], cs, rfl, (cls_rmatch_iff _ _).mpr ⟨c, rfl, beq_self_eq_true c⟩,
        (ih cs).mpr rfl⟩

theorem cat_strL_rmatch_iff (w : List Char) (r : Rx) (x : List Char) :
    rmatch (cat (strL w) r) x = true ↔ ∃ y, x = w ++ y ∧ rmatch r y = true := by
  rw [cat_rmatch_iff]
  constructor
  · rintro ⟨t, u, h, hP, hQ⟩
    rw [strL_rmatch_iff] at hP
    subst hP
    exact ⟨u, h, hQ⟩
  · rintro ⟨y, rfl, hy⟩
    exact ⟨w, y, rfl, (strL_rmatch_iff _ _).mpr rfl, hy⟩

theorem opt_rmatch_iff (r : Rx) (x : List Char) :
    rmatch (opt r) x = true ↔ x = [] ∨ rmatch r x = true := by
  unfold opt
  rw [alt_rmatch_iff, eps_rmatch_iff]

theorem rmatchPre_iff (P : Rx) (x : List Char) :
    rmatchPre P x = true ↔ ∃ t u, x = t ++ u ∧ rmatch P t = true := by
  induction x generalizing P with
  | nil =>
    show P.matchEpsilon = true ↔ _
    constructor
    · intro h
      exact ⟨[], [], rfl, h⟩
    · rintro ⟨t, u, h, hP⟩
      obtain ⟨rfl, rfl⟩ := List.append_eq_nil.mp h.symm
      exact hP
  | cons a as ih =>
    show (P.matchEpsilon || rmatchPre (P.deriv a) as) = true ↔ _
    rw [Bool.or_eq_true, ih]
    constructor
    · rintro (h | ⟨t, u, h, hP⟩)
      · exact ⟨[], a :: as, rfl, h⟩
      · exact ⟨a :: t, u, by simp [h], by rw [rmatch_cons]; exact hP⟩
    · rintro ⟨t, u, h, hP⟩
      cases t with
      | nil =>
        left
        exact hP
      | cons b t =>
        right
        obtain ⟨rfl, rfl⟩ := List.cons_eq_cons.mp h
        rw [rmatch_cons] at hP
        exact ⟨t, u, rfl, hP⟩

end Rx

open Rx

/-! ### Constants of `service_worker.js` -/

/-- `const DEFAULT_ADDRESS = "http://localhost:9595"`. -/
def DEFAULT_ADDRESS : String := "http://localhost:9595"

/-- `const HEALTH_PATH = "/stat/"`. -/
def HEALTH_PATH : String := "/stat/"

/-- `DYNAMIC_RULE_IDS.AMAZON_ADS_BLOCK = 1003`. -/
def AMAZON_ADS_BLOCK : Nat := 1003

/-- `DYNAMIC_ALLOW_IDS.LIVE_ALLOW = 3001`. -/
def LIVE_ALLOW : Nat := 3001

/-- `DYNAMIC_ALLOW_IDS.VOD_ALLOW = 3002`. -/
def VOD_ALLOW : Nat := 3002

/-- `SESSION_RULE_IDS.LIVE_REDIRECT = 2001`. -/
def LIVE_REDIRECT : Nat := 2001

/-- `SESSION_RULE_IDS.VOD_REDIRECT = 2002`. -/
def VOD_REDIRECT : Nat := 2002

/-! ### The regex filter literals of the source, transcribed into `Rx`.

Chrome regexFilter and JavaScript RegExp.test perform a substring
match; every pattern in the source is `^`-anchored, so a
pattern ending in `$` is a full match of the URL (`rmatch`) and a pattern
without `$` is a match of some initial segment (`rmatchPre`). RE2's `.`
matches every character except a newline. -/

/-- `[^/?]` : any character other than a slash or a question mark. -/
def notSlashQm (c : Char) : Bool := !(c == '/' || c == '?')

/-- `[^.]` : any character other than a dot. -/
def notDot (c : Char) : Bool := !(c == '.')

/-- `.` : any character other than a newline (RE2 dot). -/
def anyNotNL (c : Char) : Bool := !(c == '\n')

/-- `(\?.*)?` : the optional query suffix of the redirect filters. -/
def queryTail : Rx := opt (Rx.cat (chr '?') (Rx.star (Rx.cls anyNotNL)))

/-- `^https://usher\.ttvnw\.net/api/channel/hls/([^/?]+)\.m3u8(\?.*)?$`,
the live redirect (and live allow) filter. -/
def liveRegexFilter : Rx :=
  Rx.cat (strr "https://usher.ttvnw.net/api/channel/hls/")
    (Rx.cat (plus1 notSlashQm) (Rx.cat (strr ".m3u8") queryTail))

/-- `^https://usher\.ttvnw\.net/vod/([^/?]+)\.m3u8(\?.*)?$`, the vod
redirect (and vod allow) filter. -/
def vodRegexFilter : Rx :=
  Rx.cat (strr "https://usher.ttvnw.net/vod/")
    (Rx.cat (plus1 notSlashQm) (Rx.cat (strr ".m3u8") queryTail))

/-- `^https?://([^.]+\.)?amazon-adsystem\.com/.*`, the ad-block filter
(no `$`, so it is an initial-segment match). -/
def adsRegexFilter : Rx :=
  Rx.cat (strr "http")
    (Rx.cat (opt (chr 's'))
      (Rx.cat (strr "://")
        (Rx.cat (opt (Rx.cat (plus1 notDot) (chr '.')))
          (Rx.cat (strr "amazon-adsystem.com/") (Rx.star (Rx.cls anyNotNL))))))

/-- `^https:\/\/([^.]+\.)?twitch\.tv\/` : the Twitch-page test used both by
`isTwitchNavigation` and by the guard inside `sendOfflineMessage`. -/
def twitchTabRegexFilter : Rx :=
  Rx.cat (strr "https://")
    (Rx.cat (opt (Rx.cat (plus1 notDot) (chr '.'))) (strr "twitch.tv/"))

/-- `^https:\/\/usher\.ttvnw\.net\/` : the usher test in
`isTwitchNavigation`. -/
def usherNavRegexFilter : Rx := strr "https://usher.ttvnw.net/"

/-- One case-insensitive letter. -/
def ciChr (lower upper : Char) : Rx := Rx.cls (fun c => c == lower || c == upper)

/-- `/^https?:/i` : the scheme test of `normalizeBase` (case-insensitive,
initial-segment match). -/
def schemeRegexCI : Rx :=
  Rx.cat (ciChr 'h' 'H')
    (Rx.cat (ciChr 't' 'T')
      (Rx.cat (ciChr 't' 'T')
        (Rx.cat (ciChr 'p' 'P')
          (Rx.cat (opt (ciChr 's' 'S')) (chr ':')))))

/-! ### `normalizeBase` -/

/-- `let base = input || DEFAULT_ADDRESS` — an absent (`undefined`) or
empty (falsy) input falls back to the default address. -/
def resolveInput : Option String → String
  | none => DEFAULT_ADDRESS
  | some s => if s = "" then DEFAULT_ADDRESS else s

/-- `if (!/^https?:/i.test(base)) base = "http://" + base`. -/
def withScheme (base : String) : String :=
  if rmatchPre schemeRegexCI base.data then base else "http://" ++ base

/-- `if (base.endsWith("/")) base = base.slice(0, -1)` — removes one
trailing slash. -/
def stripTrailingSlash (base : String) : String :=
  if base.data.getLast? = some '/' then String.mk base.data.dropLast else base

/-- `normalizeBase(input)` from the source. -/
def normalizeBase (input : Option String) : String :=
  stripTrailingSlash (withScheme (resolveInput input))

/-! ### Rules -/

/-- A declarativeNetRequest rule action. -/
inductive RuleAction where
  | block : RuleAction
  | allow : RuleAction
  | redirect : (regexSubstitution : String) → RuleAction

/-- A declarativeNetRequest rule as built by the source: the
`regexFilter` literal is carried as its `Rx` transcription, and
`endAnchored` records whether the literal ends in `$` (full match)
or not (initial-segment match). -/
structure DNRRule where
  id : Nat
  priority : Nat
  action : RuleAction
  regexFilter : Rx
  endAnchored : Bool
  resourceTypes : Option (List String)

/-- `resourceTypes: ["xmlhttprequest", "media", "other"]`. -/
def resourceTypesXMO : Option (List String) :=
  some ["xmlhttprequest", "media", "other"]

/-- Does the rule's condition match the request URL? -/
def ruleMatches (r : DNRRule) (u : List Char) : Bool :=
  if r.endAnchored then rmatch r.regexFilter u else rmatchPre r.regexFilter u

/-- `buildRedirectSessionRules(baseAddress)`: the live and vod session
redirect rules, with `regexSubstitution` templates
`` `${base}/live/\1\2` `` and `` `${base}/vod/\1\2` ``. -/
def buildRedirectSessionRules (baseAddress : String) : List DNRRule :=
  let base := normalizeBase (some baseAddress)
  [ { id := LIVE_REDIRECT, priority := 1,
      action := RuleAction.redirect (base ++ "/live/\\1\\2"),
      regexFilter := liveRegexFilter, endAnchored := true,
      resourceTypes := resourceTypesXMO },
    { id := VOD_REDIRECT, priority := 1,
      action := RuleAction.redirect (base ++ "/vod/\\1\\2"),
      regexFilter := vodRegexFilter, endAnchored := true,
      resourceTypes := resourceTypesXMO } ]

/-- The `adsBlockRule` of `addOrUpdateAdsBlockDynamicRule`. -/
def adsBlockRule : DNRRule :=
  { id := AMAZON_ADS_BLOCK, priority := 1, action := RuleAction.block,
    regexFilter := adsRegexFilter, endAnchored := false,
    resourceTypes := none }

/-- The `liveAllow` rule of `setAllowBypassRules` (priority 100). -/
def liveAllowRule : DNRRule :=
  { id := LIVE_ALLOW, priority := 100, action := RuleAction.allow,
    regexFilter := liveRegexFilter, endAnchored := true,
    resourceTypes := resourceTypesXMO }

/-- The `vodAllow` rule of `setAllowBypassRules` (priority 100). -/
def vodAllowRule : DNRRule :=
  { id := VOD_ALLOW, priority := 100, action := RuleAction.allow,
    regexFilter := vodRegexFilter, endAnchored := true,
    resourceTypes := resourceTypesXMO }

/-! ### Service-worker state and the rule-install calls -/

/-- The mutable state the service worker acts on: the session rule list,
the dynamic rule list (both owned by the browser's rule engine) and the
worker-global `lastRelayOnline` (`null | boolean`). -/
structure SWState where
  sessionRules : List DNRRule
  dynamicRules : List DNRRule
  lastRelayOnline : Option Bool

/-- One `updateSessionRules` / `updateDynamicRules` call: atomically
remove every rule whose id is listed, then append the new rules. -/
def updateRules (rules : List DNRRule) (removeRuleIds : List Nat)
    (addRules : List DNRRule) : List DNRRule :=
  rules.filter (fun r => !(removeRuleIds.contains r.id)) ++ addRules

/-- `addOrUpdateAdsBlockDynamicRule()`. -/
def addOrUpdateAdsBlockDynamicRule (s : SWState) : SWState :=
  { s with dynamicRules := updateRules s.dynamicRules [AMAZON_ADS_BLOCK] [adsBlockRule] }

/-- `setAllowBypassRules(enabled)`. -/
def setAllowBypassRules (enabled : Bool) (s : SWState) : SWState :=
  { s with dynamicRules :=
      (updateRules s.dynamicRules [LIVE_ALLOW, VOD_ALLOW]
        (if enabled then [liveAllowRule, vodAllowRule] else [])) }

/-- `addRedirectSessionRules(baseAddress)`. -/
def addRedirectSessionRules (baseAddress : String) (s : SWState) : SWState :=
  { s with sessionRules :=
      (updateRules s.sessionRules [LIVE_REDIRECT, VOD_REDIRECT]
        (buildRedirectSessionRules baseAddress)) }

/-- `removeRedirectSessionRules()`. -/
def removeRedirectSessionRules (s : SWState) : SWState :=
  { s with sessionRules :=
      updateRules s.sessionRules [LIVE_REDIRECT, VOD_REDIRECT] [] }

/-- `removeOldDynamicRedirectRules()` (removes the legacy ids 1001, 1002). -/
def removeOldDynamicRedirectRules (s : SWState) : SWState :=
  { s with dynamicRules := updateRules s.dynamicRules [1001, 1002] [] }

/-! ### The health probe `isRelayOnline` -/

/-- What `res.json()` produced: it threw (body not parseable), or it
parsed to a value carrying a boolean `online` field, or it parsed to a
value without such a field. -/
inductive ProbeBody where
  | noJson : ProbeBody
  | jsonOnlineFlag : Bool → ProbeBody
  | jsonOther : ProbeBody

/-- The outcome of the single `fetch` of the probe: the transport threw,
or a response arrived with success flag `res.ok` and a body. -/
inductive ProbeOutcome where
  | netError : ProbeOutcome
  | resp : (ok : Bool) → ProbeBody → ProbeOutcome

/-- `isRelayOnline(address)`, as a function of the one fetch outcome:
`catch → false`; `!res.ok → false`; a parsed body with a boolean
`online` field is returned verbatim; otherwise `true`. -/
def isRelayOnline (outcome : ProbeOutcome) : Bool :=
  match outcome with
  | ProbeOutcome.netError => false
  | ProbeOutcome.resp ok body =>
    if !ok then false
    else
      match body with
      | ProbeBody.jsonOnlineFlag b => b
      | ProbeBody.noJson => true
      | ProbeBody.jsonOther => true

/-- The URL the probe fetches: `` `${base}${HEALTH_PATH}` ``. -/
def probeUrl (address : String) : String :=
  normalizeBase (some address) ++ HEALTH_PATH

/-! ### The reconcile handlers -/

/-- Outcome of `chrome.storage.sync.get(["address"])`: the call threw,
or it resolved without the key, or it resolved with a stored value. -/
inductive ConfigRead where
  | failure : ConfigRead
  | absent : ConfigRead
  | found : String → ConfigRead

/-- The address the handlers work with: `none` when the read threw (the
enclosing `try` aborts the handler), otherwise the destructuring default
`const { address = DEFAULT_ADDRESS } = ...` applies only to an absent
key. -/
def readAddress : ConfigRead → Option String
  | ConfigRead.failure => none
  | ConfigRead.absent => some DEFAULT_ADDRESS
  | ConfigRead.found a => some a

/-- `applyOnlineState(online, address, context)`. The returned flag
records whether `sendOfflineMessage` was invoked (the edge-triggered
offline notification). -/
def applyOnlineState (online : Bool) (address : String) (s : SWState) :
    SWState × Bool :=
  if online then
    let s1 := setAllowBypassRules false s
    let s2 := addRedirectSessionRules address s1
    ({ s2 with lastRelayOnline := some true }, false)
  else
    let s1 := setAllowBypassRules true s
    ({ s1 with lastRelayOnline := some false },
      !(s.lastRelayOnline == some false))

/-- `applyRulesFromStorage()`: read config, install the ad-block rule,
clear the session redirects, probe, then `applyOnlineState`; a throwing
config read is caught and the handler does nothing further. -/
def applyRulesFromStorage (cfg : ConfigRead) (online : Bool) (s : SWState) :
    SWState × Bool :=
  match readAddress cfg with
  | none => (s, false)
  | some address =>
    let s1 := addOrUpdateAdsBlockDynamicRule s
    let s2 := removeRedirectSessionRules s1
    applyOnlineState online address s2

/-- The `chrome.alarms.onAlarm` handler body (for the healthcheck alarm):
read config, probe, clear session redirects, `applyOnlineState`; a throw
is caught and ignored. -/
def alarmReconcile (cfg : ConfigRead) (online : Bool) (s : SWState) :
    SWState × Bool :=
  match readAddress cfg with
  | none => (s, false)
  | some address => applyOnlineState online address (removeRedirectSessionRules s)

/-- `refreshRulesNow(context)` (navigation triggers): same step sequence
as the alarm handler. -/
def refreshRulesNow (cfg : ConfigRead) (online : Bool) (s : SWState) :
    SWState × Bool :=
  match readAddress cfg with
  | none => (s, false)
  | some address => applyOnlineState online address (removeRedirectSessionRules s)

/-- The `chrome.storage.onChanged` handler for a changed `address`:
`changes.address.newValue || DEFAULT_ADDRESS`, probe, clear session
redirects, `applyOnlineState`. -/
def onStorageAddressChanged (newValue : Option String) (online : Bool)
    (s : SWState) : SWState × Bool :=
  let next :=
    match newValue with
    | none => DEFAULT_ADDRESS
    | some v => if v = "" then DEFAULT_ADDRESS else v
  applyOnlineState online next (removeRedirectSessionRules s)

/-- The startup / install handler: `removeOldDynamicRedirectRules()` then
`applyRulesFromStorage()`. -/
def startupReconcile (cfg : ConfigRead) (online : Bool) (s : SWState) :
    SWState × Bool :=
  applyRulesFromStorage cfg online (removeOldDynamicRedirectRules s)

/-! ### Suspension-point traces

One entry per state the rule stores pass through during a single handler
run: the initial state, then the state after each awaited rule-install
call, ending in the handler's final state. -/

/-- States after each rule-install call inside `applyOnlineState`. -/
def applyOnlineStateTrace (online : Bool) (address : String) (s : SWState) :
    List SWState :=
  if online then
    let s1 := setAllowBypassRules false s
    let s2 := addRedirectSessionRules address s1
    [s1, { s2 with lastRelayOnline := some true }]
  else
    let s1 := setAllowBypassRules true s
    [{ s1 with lastRelayOnline := some false }]

/-- Suspension-point trace of the alarm / navigation reconcile. -/
def alarmReconcileTrace (cfg : ConfigRead) (online : Bool) (s : SWState) :
    List SWState :=
  match readAddress cfg with
  | none => [s]
  | some address =>
    let s1 := removeRedirectSessionRules s
    s :: s1 :: applyOnlineStateTrace online address s1

/-- Suspension-point trace of `applyRulesFromStorage`. -/
def applyRulesFromStorageTrace (cfg : ConfigRead) (online : Bool)
    (s : SWState) : List SWState :=
  match readAddress cfg with
  | none => [s]
  | some address =>
    let s1 := addOrUpdateAdsBlockDynamicRule s
    let s2 := removeRedirectSessionRules s1
    s :: s1 :: s2 :: applyOnlineStateTrace online address s2

/-- A sequence of alarm reconciles against a fixed stored config, one per
observed probe outcome; returns the final state and how many times the
offline notification was dispatched. -/
def runReconciles (cfg : ConfigRead) (obss : List Bool) (s : SWState) :
    SWState × Nat :=
  match obss with
  | [] => (s, 0)
  | o :: rest =>
    let r := alarmReconcile cfg o s
    let r2 := runReconciles cfg rest r.1
    (r2.1, (if r.2 then 1 else 0) + r2.2)

/-! ### Notifications and the tab-update listener -/

/-- The fixed payload message of `sendOfflineMessage`. -/
def offlinePayloadMessage : String :=
  "Proxy error, you will see ads. Is the server running?"

/-- A per-trigger target (`context`) for the dispatcher. -/
structure MsgContext where
  tabId : Nat
  url : String

/-- `sendOfflineMessage(context)` with a target: the payload is sent to
the context's tab only if the context URL passes the twitch.tv test
(`/^https:\/\/([^.]+\.)?twitch\.tv\//`); otherwise the function returns
without sending. Returns the attempted delivery. -/
def sendOfflineMessageTargeted (c : MsgContext) : Option (Nat × String) :=
  if rmatchPre twitchTabRegexFilter c.url.data then
    some (c.tabId, offlinePayloadMessage)
  else none

/-- `isTwitchNavigation(url)`. -/
def isTwitchNavigation (url : String) : Bool :=
  rmatchPre twitchTabRegexFilter url.data || rmatchPre usherNavRegexFilter url.data

/-- The `chrome.tabs.onUpdated` listener: on a completed load of a
Twitch/usher URL while `lastRelayOnline === false`, re-invoke
`sendOfflineMessage` targeted at that tab. Returns the attempted
delivery, if any. -/
def tabsOnUpdatedHandler (changeStatus : String) (tabId : Nat)
    (tabUrl : Option String) (lastOnline : Option Bool) :
    Option (Nat × String) :=
  if changeStatus ≠ "complete" then none
  else
    let url := tabUrl.getD ""
    if !(isTwitchNavigation url) then none
    else if lastOnline == some false then
      sendOfflineMessageTargeted { tabId := tabId, url := url }
    else none

/-! ### Observers -/

/-- The two logical routes. -/
inductive Route where
  | live : Route
  | vod : Route

/-- The session redirect rule id of a route. -/
def redirectRuleId : Route → Nat
  | Route.live => LIVE_REDIRECT
  | Route.vod => VOD_REDIRECT

/-- The dynamic allow-bypass rule id of a route. -/
def allowRuleId : Route → Nat
  | Route.live => LIVE_ALLOW
  | Route.vod => VOD_ALLOW

/-- Is a rule with the given id present? -/
def hasRule (rules : List DNRRule) (i : Nat) : Bool :=
  rules.any (fun r => r.id == i)

/-- Is the redirect rule of the route installed? -/
def redirectActive (s : SWState) (r : Route) : Bool :=
  hasRule s.sessionRules (redirectRuleId r)

/-- Is the allow-bypass rule of the route installed? -/
def allowActive (s : SWState) (r : Route) : Bool :=
  hasRule s.dynamicRules (allowRuleId r)

/-- Is the ad-block rule installed? -/
def adBlockActive (s : SWState) : Bool :=
  hasRule s.dynamicRules AMAZON_ADS_BLOCK

/-! ### Capture-group substitution

`regexSubstitution` templates replace `\1` and `\2` by the text of the
first and second capture group of the matched URL. -/

/-- Apply a two-group substitution template. -/
def applySubst2 (template : List Char) (g1 g2 : List Char) : List Char :=
  match template with
  | [] => []
  | '\\' :: '1' :: rest => g1 ++ applySubst2 rest g1 g2
  | '\\' :: '2' :: rest => g2 ++ applySubst2 rest g1 g2
  | c :: rest => c :: applySubst2 rest g1 g2

/-- The state the worker's globals start from: empty rule stores and
`lastRelayOnline = null`. -/
def initialState : SWState :=
  { sessionRules := [], dynamicRules := [], lastRelayOnline := none }

/-! ### Helper lemmas about rule presence under `updateRules` -/

theorem hasRule_append (l1 l2 : List DNRRule) (i : Nat) :
    hasRule (l1 ++ l2) i = (hasRule l1 i || hasRule l2 i) := by
  simp [hasRule, List.any_append]

theorem hasRule_filter_removed {removeRuleIds : List Nat} {i : Nat}
    (rules : List DNRRule) (h : removeRuleIds.contains i = true) :
    hasRule (rules.filter (fun r => !(removeRuleIds.contains r.id))) i = false := by
  rw [hasRule]
  rw [List.any_eq_false]
  intro r hr
  obtain ⟨-, hkeep⟩ := List.mem_filter.mp hr
  intro hid
  rw [eq_of_beq hid] at hkeep
  rw [h] at hkeep
  exact absurd hkeep (by simp)

theorem hasRule_filter_kept {removeRuleIds : List Nat} {i : Nat}
    (rules : List DNRRule) (h : removeRuleIds.contains i = false) :
    hasRule (rules.filter (fun r => !(removeRuleIds.contains r.id))) i
      = hasRule rules i := by
  induction rules with
  | nil => rfl
  | cons r rs ih =>
    rw [List.filter_cons]
    by_cases hid : r.id = i
    · have hp : (!(removeRuleIds.contains r.id)) = true := by
        rw [hid, h]; rfl
      rw [if_pos hp]
      simp only [hasRule, List.any_cons]
      rw [show (r.id == i) = true from by rw [hid]; exact beq_self_eq_true i]
      rw [Bool.true_or, Bool.true_or]
    · have hbeq : (r.id == i) = false := by
        rw [beq_eq_false_iff_ne]; exact hid
      by_cases hp : (!(removeRuleIds.contains r.id)) = true
      · rw [if_pos hp]
        simp only [hasRule, List.any_cons]
        rw [hbeq, Bool.false_or, Bool.false_or]
        exact ih
      · rw [if_neg hp]
        simp only [hasRule, List.any_cons]
        rw [hbeq, Bool.false_or]
        exact ih

theorem hasRule_updateRules_removed {removeRuleIds : List Nat} {i : Nat}
    (rules addRules : List DNRRule) (h : removeRuleIds.contains i = true) :
    hasRule (updateRules rules removeRuleIds addRules) i = hasRule addRules i := by
  rw [updateRules, hasRule_append, hasRule_filter_removed rules h, Bool.false_or]

theorem hasRule_updateRules_kept {removeRuleIds : List Nat} {i : Nat}
    (rules addRules : List DNRRule) (h : removeRuleIds.contains i = false) :
    hasRule (updateRules rules removeRuleIds addRules) i
      = (hasRule rules i || hasRule addRules i) := by
  rw [updateRules, hasRule_append, hasRule_filter_kept rules h]

/-! ### Claims -/

/-- Claim C3: the health probe classifies the single GET's outcome as:
transport failure or non-success status ⇒ Offline; success status with a
parsed body carrying a boolean `online` field ⇒ that field verbatim (so
200 with `online: false` is Offline); success status without such a field
or with an unparseable body ⇒ Online. The probe fetches
`<normalized base>/stat/`; it is a function of one fetch outcome and
performs no retry. -/
theorem probe_classification :
    (∀ b : Bool,
      isRelayOnline (ProbeOutcome.resp true (ProbeBody.jsonOnlineFlag b)) = b)
  ∧ isRelayOnline (ProbeOutcome.resp true (ProbeBody.jsonOnlineFlag false)) = false
  ∧ isRelayOnline ProbeOutcome.netError = false
  ∧ (∀ body : ProbeBody, isRelayOnline (ProbeOutcome.resp false body) = false)
  ∧ isRelayOnline (ProbeOutcome.resp true ProbeBody.noJson) = true
  ∧ isRelayOnline (ProbeOutcome.resp true ProbeBody.jsonOther) = true
  ∧ (∀ a : String, probeUrl a = normalizeBase (some a) ++ HEALTH_PATH) := by
  refine ⟨fun b => by cases b <;> rfl, rfl, rfl, fun body => rfl, rfl, rfl, fun a => rfl⟩

/-- Claim C5 counterexample: when the config read throws, the reconcile is
abandoned entirely — starting from empty stores, nothing is installed
(no redirect rules, no ad-block rule) and the held state is untouched,
whereas a successful read with the key absent (the actual default path)
does install them. The claim's "proceeds with the default address" is
false for a throwing read. -/
theorem configFailure_aborts_cex :
    (applyRulesFromStorage ConfigRead.failure true initialState).1 = initialState
  ∧ redirectActive ((applyRulesFromStorage ConfigRead.failure true initialState).1)
      Route.live = false
  ∧ adBlockActive ((applyRulesFromStorage ConfigRead.failure true initialState).1)
      = false
  ∧ redirectActive ((applyRulesFromStorage ConfigRead.absent true initialState).1)
      Route.live = true
  ∧ adBlockActive ((applyRulesFromStorage ConfigRead.absent true initialState).1)
      = true := by
  refine ⟨rfl, by decide, by decide, by decide, by decide⟩

/-- Claim C5 amended: a throwing config read aborts the handler — no rule
change, no state update, no notification; the default address stands in
only when the read resolves with the key absent, in which case the
handler behaves exactly as if the stored address were the default. -/
theorem configFailure_aborts :
    (∀ (online : Bool) (s : SWState),
      applyRulesFromStorage ConfigRead.failure online s = (s, false))
  ∧ (∀ (online : Bool) (s : SWState),
      alarmReconcile ConfigRead.failure online s = (s, false))
  ∧ (∀ (online : Bool) (s : SWState),
      refreshRulesNow ConfigRead.failure online s = (s, false))
  ∧ (∀ (online : Bool) (s : SWState),
      applyRulesFromStorage ConfigRead.absent online s
        = applyRulesFromStorage (ConfigRead.found DEFAULT_ADDRESS) online s)
  ∧ (∀ (online : Bool) (s : SWState),
      alarmReconcile ConfigRead.absent online s
        = alarmReconcile (ConfigRead.found DEFAULT_ADDRESS) online s) := by
  exact ⟨fun _ _ => rfl, fun _ _ => rfl, fun _ _ => rfl, fun _ _ => rfl,
    fun _ _ => rfl⟩

/-- Claim C2: the offline notification is dispatched by a reconcile
exactly when the reconcile ran (the config read did not throw), the newly
observed state is Offline, and the held `lastRelayOnline` was not already
`false` — including the very first observation, when it is still `null`;
consequently three consecutive Offline observations dispatch exactly one
notification. -/
theorem notification_edge_triggered :
    (∀ (cfg : ConfigRead) (online : Bool) (s : SWState),
      (alarmReconcile cfg online s).2 = true ↔
        (readAddress cfg ≠ none ∧ online = false ∧ s.lastRelayOnline ≠ some false))
  ∧ (∀ (cfg : ConfigRead) (online : Bool) (s : SWState),
      (applyRulesFromStorage cfg online s).2 = true ↔
        (readAddress cfg ≠ none ∧ online = false ∧ s.lastRelayOnline ≠ some false))
  ∧ (∀ (nv : Option String) (online : Bool) (s : SWState),
      (onStorageAddressChanged nv online s).2 = true ↔
        (online = false ∧ s.lastRelayOnline ≠ some false))
  ∧ (runReconciles ConfigRead.absent [false, false, false] initialState).2 = 1 := by
  refine ⟨?_, ?_, ?_, by decide⟩
  · intro cfg online s
    cases cfg <;> cases online <;>
      simp [alarmReconcile, readAddress, applyOnlineState, removeRedirectSessionRules,
        setAllowBypassRules, addRedirectSessionRules]
  · intro cfg online s
    cases cfg <;> cases online <;>
      simp [applyRulesFromStorage, readAddress, applyOnlineState,
        removeRedirectSessionRules, setAllowBypassRules, addRedirectSessionRules,
        addOrUpdateAdsBlockDynamicRule]
  · intro nv online s
    cases online <;>
      simp [onStorageAddressChanged, applyOnlineState, removeRedirectSessionRules,
        setAllowBypassRules, addRedirectSessionRules]

/-- Post-reconcile consistency for one route: the redirect rule is
installed exactly when the observed state is Online, and the allow-bypass
rule exactly when it is Offline. -/
def routeSettled (online : Bool) (s : SWState) : Prop :=
  ∀ r : Route, redirectActive s r = online ∧ allowActive s r = !online

theorem settled_applyOnlineState (online : Bool) (addr : String) (s : SWState) :
    routeSettled online ((applyOnlineState online addr (removeRedirectSessionRules s)).1) := by
  intro r
  cases online with
  | true =>
    constructor
    · show hasRule (updateRules
          (updateRules s.sessionRules [LIVE_REDIRECT, VOD_REDIRECT] [])
          [LIVE_REDIRECT, VOD_REDIRECT] (buildRedirectSessionRules addr))
          (redirectRuleId r) = true
      rw [hasRule_updateRules_removed _ _ (by cases r <;> rfl)]
      cases r <;> rfl
    · show hasRule (updateRules s.dynamicRules [LIVE_ALLOW, VOD_ALLOW] [])
          (allowRuleId r) = !true
      rw [hasRule_updateRules_removed _ _ (by cases r <;> rfl)]
      rfl
  | false =>
    constructor
    · show hasRule (updateRules s.sessionRules [LIVE_REDIRECT, VOD_REDIRECT] [])
          (redirectRuleId r) = false
      rw [hasRule_updateRules_removed _ _ (by cases r <;> rfl)]
      rfl
    · show hasRule (updateRules s.dynamicRules [LIVE_ALLOW, VOD_ALLOW]
          [liveAllowRule, vodAllowRule]) (allowRuleId r) = !false
      rw [hasRule_updateRules_removed _ _ (by cases r <;> rfl)]
      cases r <;> rfl

/-- Claim C1: after every completed reconcile — startup, alarm tick,
config change, or navigation trigger — each route has exactly one of the
two session-rule categories active: Online installs the redirect rules
and removes the allow-bypass rules; Offline installs the allow-bypass
rules and removes the redirect rules. -/
theorem post_reconcile_exclusive :
    ∀ (a : String) (online : Bool) (s : SWState),
      routeSettled online ((applyRulesFromStorage (ConfigRead.found a) online s).1)
    ∧ routeSettled online ((applyRulesFromStorage ConfigRead.absent online s).1)
    ∧ routeSettled online ((alarmReconcile (ConfigRead.found a) online s).1)
    ∧ routeSettled online ((alarmReconcile ConfigRead.absent online s).1)
    ∧ routeSettled online ((refreshRulesNow (ConfigRead.found a) online s).1)
    ∧ (∀ nv : Option String,
        routeSettled online ((onStorageAddressChanged nv online s).1))
    ∧ routeSettled online ((startupReconcile (ConfigRead.found a) online s).1)
    ∧ routeSettled online ((startupReconcile ConfigRead.absent online s).1) := by
  intro a online s
  exact ⟨settled_applyOnlineState online a (addOrUpdateAdsBlockDynamicRule s),
    settled_applyOnlineState online DEFAULT_ADDRESS (addOrUpdateAdsBlockDynamicRule s),
    settled_applyOnlineState online a s,
    settled_applyOnlineState online DEFAULT_ADDRESS s,
    settled_applyOnlineState online a s,
    fun nv => settled_applyOnlineState online _ s,
    settled_applyOnlineState online a
      (addOrUpdateAdsBlockDynamicRule (removeOldDynamicRedirectRules s)),
    settled_applyOnlineState online DEFAULT_ADDRESS
      (addOrUpdateAdsBlockDynamicRule (removeOldDynamicRedirectRules s))⟩

/-! ### Idempotence of the reconcile handlers -/

theorem filter_self_twice (p : DNRRule → Bool) (l : List DNRRule) :
    List.filter p (List.filter p l) = List.filter p l := by
  simp only [List.filter_filter]
  apply List.filter_congr
  intro a _
  cases p a <;> rfl

theorem filter_comm4 (p q : DNRRule → Bool) (l : List DNRRule) :
    List.filter q (List.filter p (List.filter q (List.filter p l)))
      = List.filter q (List.filter p l) := by
  simp only [List.filter_filter]
  apply List.filter_congr
  intro a _
  cases hq : q a <;> cases hp : p a <;> rfl

theorem filter_nil_of_removed (removeRuleIds : List Nat) (adds : List DNRRule)
    (h : ∀ a ∈ adds, removeRuleIds.contains a.id = true) :
    adds.filter (fun r => !(removeRuleIds.contains r.id)) = [] := by
  rw [List.filter_eq_nil_iff]
  intro a ha
  rw [h a ha]
  simp

theorem build_ids (a : String) :
    ∀ x ∈ buildRedirectSessionRules a,
      List.contains [LIVE_REDIRECT, VOD_REDIRECT] x.id = true := by
  intro x hx
  rcases List.mem_cons.mp hx with rfl | hx2
  · rfl
  · rcases List.mem_cons.mp hx2 with rfl | hx3
    · rfl
    · exact absurd hx3 (List.not_mem_nil x)

theorem allow_ids :
    ∀ x ∈ [liveAllowRule, vodAllowRule],
      List.contains [LIVE_ALLOW, VOD_ALLOW] x.id = true := by
  intro x hx
  rcases List.mem_cons.mp hx with rfl | hx2
  · rfl
  · rcases List.mem_cons.mp hx2 with rfl | hx3
    · rfl
    · exact absurd hx3 (List.not_mem_nil x)

theorem updateRules_remove_twice (rules : List DNRRule) (rm : List Nat) :
    updateRules (updateRules rules rm []) rm [] = updateRules rules rm [] := by
  unfold updateRules
  simp only [List.append_nil]
  exact filter_self_twice _ _

theorem updateRules_idem (rules : List DNRRule) (rm : List Nat)
    (adds : List DNRRule) (h : ∀ x ∈ adds, rm.contains x.id = true) :
    updateRules (updateRules rules rm adds) rm adds
      = updateRules rules rm adds := by
  unfold updateRules
  rw [List.filter_append, filter_nil_of_removed rm adds h, List.append_nil,
    filter_self_twice]

theorem updateRules_remove_then_replace (rules : List DNRRule) (rm : List Nat)
    (B : List DNRRule) (hB : ∀ x ∈ B, rm.contains x.id = true) :
    updateRules (updateRules (updateRules (updateRules rules rm []) rm B) rm []) rm B
      = updateRules (updateRules rules rm []) rm B := by
  unfold updateRules
  simp only [List.append_nil, List.filter_append]
  rw [filter_nil_of_removed rm B hB]
  simp only [List.filter_nil, List.append_nil, filter_self_twice]

theorem alarm_step_idem (a : String) (online : Bool) (s : SWState) :
    (alarmReconcile (ConfigRead.found a) online
        (alarmReconcile (ConfigRead.found a) online s).1).1
      = (alarmReconcile (ConfigRead.found a) online s).1 := by
  cases online with
  | true =>
    show SWState.mk
        (updateRules (updateRules
          (updateRules (updateRules s.sessionRules [LIVE_REDIRECT, VOD_REDIRECT] [])
            [LIVE_REDIRECT, VOD_REDIRECT] (buildRedirectSessionRules a))
          [LIVE_REDIRECT, VOD_REDIRECT] [])
          [LIVE_REDIRECT, VOD_REDIRECT] (buildRedirectSessionRules a))
        (updateRules (updateRules s.dynamicRules [LIVE_ALLOW, VOD_ALLOW] [])
          [LIVE_ALLOW, VOD_ALLOW] [])
        (some true)
      = SWState.mk
        (updateRules (updateRules s.sessionRules [LIVE_REDIRECT, VOD_REDIRECT] [])
          [LIVE_REDIRECT, VOD_REDIRECT] (buildRedirectSessionRules a))
        (updateRules s.dynamicRules [LIVE_ALLOW, VOD_ALLOW] [])
        (some true)
    rw [updateRules_remove_then_replace _ _ _ (build_ids a),
      updateRules_remove_twice]
  | false =>
    show SWState.mk
        (updateRules (updateRules s.sessionRules [LIVE_REDIRECT, VOD_REDIRECT] [])
          [LIVE_REDIRECT, VOD_REDIRECT] [])
        (updateRules (updateRules s.dynamicRules [LIVE_ALLOW, VOD_ALLOW]
          [liveAllowRule, vodAllowRule]) [LIVE_ALLOW, VOD_ALLOW]
          [liveAllowRule, vodAllowRule])
        (some false)
      = SWState.mk
        (updateRules s.sessionRules [LIVE_REDIRECT, VOD_REDIRECT] [])
        (updateRules s.dynamicRules [LIVE_ALLOW, VOD_ALLOW]
          [liveAllowRule, vodAllowRule])
        (some false)
    rw [updateRules_remove_twice, updateRules_idem _ _ _ allow_ids]

theorem filter_ads_by_ads :
    List.filter (fun r => !(List.contains [AMAZON_ADS_BLOCK] r.id)) [adsBlockRule]
      = [] := rfl

theorem filter_ads_by_allow :
    List.filter (fun r => !(List.contains [LIVE_ALLOW, VOD_ALLOW] r.id)) [adsBlockRule]
      = [adsBlockRule] := rfl

theorem filter_allow_by_ads :
    List.filter (fun r => !(List.contains [AMAZON_ADS_BLOCK] r.id))
      [liveAllowRule, vodAllowRule] = [liveAllowRule, vodAllowRule] := rfl

theorem filter_allow_by_allow :
    List.filter (fun r => !(List.contains [LIVE_ALLOW, VOD_ALLOW] r.id))
      [liveAllowRule, vodAllowRule] = [] := rfl

theorem storage_dyn_online_idem (d : List DNRRule) :
    updateRules (updateRules (updateRules (updateRules d
        [AMAZON_ADS_BLOCK] [adsBlockRule]) [LIVE_ALLOW, VOD_ALLOW] [])
        [AMAZON_ADS_BLOCK] [adsBlockRule]) [LIVE_ALLOW, VOD_ALLOW] []
      = updateRules (updateRules d [AMAZON_ADS_BLOCK] [adsBlockRule])
          [LIVE_ALLOW, VOD_ALLOW] [] := by
  unfold updateRules
  simp only [List.append_nil, List.filter_append, filter_ads_by_ads,
    filter_ads_by_allow, List.filter_nil, List.nil_append, List.append_assoc]
  rw [filter_comm4]

theorem storage_dyn_offline_idem (d : List DNRRule) :
    updateRules (updateRules (updateRules (updateRules d
        [AMAZON_ADS_BLOCK] [adsBlockRule]) [LIVE_ALLOW, VOD_ALLOW]
        [liveAllowRule, vodAllowRule])
        [AMAZON_ADS_BLOCK] [adsBlockRule]) [LIVE_ALLOW, VOD_ALLOW]
        [liveAllowRule, vodAllowRule]
      = updateRules (updateRules d [AMAZON_ADS_BLOCK] [adsBlockRule])
          [LIVE_ALLOW, VOD_ALLOW] [liveAllowRule, vodAllowRule] := by
  unfold updateRules
  simp only [List.filter_append, filter_ads_by_ads, filter_ads_by_allow,
    filter_allow_by_ads, filter_allow_by_allow, List.filter_nil,
    List.nil_append, List.append_nil, List.append_assoc]
  rw [filter_comm4]

theorem storage_step_idem (a : String) (online : Bool) (s : SWState) :
    (applyRulesFromStorage (ConfigRead.found a) online
        (applyRulesFromStorage (ConfigRead.found a) online s).1).1
      = (applyRulesFromStorage (ConfigRead.found a) online s).1 := by
  cases online with
  | true =>
    show SWState.mk
        (updateRules (updateRules
          (updateRules (updateRules s.sessionRules [LIVE_REDIRECT, VOD_REDIRECT] [])
            [LIVE_REDIRECT, VOD_REDIRECT] (buildRedirectSessionRules a))
          [LIVE_REDIRECT, VOD_REDIRECT] [])
          [LIVE_REDIRECT, VOD_REDIRECT] (buildRedirectSessionRules a))
        (updateRules (updateRules (updateRules (updateRules s.dynamicRules
          [AMAZON_ADS_BLOCK] [adsBlockRule]) [LIVE_ALLOW, VOD_ALLOW] [])
          [AMAZON_ADS_BLOCK] [adsBlockRule]) [LIVE_ALLOW, VOD_ALLOW] [])
        (some true)
      = SWState.mk
        (updateRules (updateRules s.sessionRules [LIVE_REDIRECT, VOD_REDIRECT] [])
          [LIVE_REDIRECT, VOD_REDIRECT] (buildRedirectSessionRules a))
        (updateRules (updateRules s.dynamicRules [AMAZON_ADS_BLOCK] [adsBlockRule])
          [LIVE_ALLOW, VOD_ALLOW] [])
        (some true)
    rw [updateRules_remove_then_replace _ _ _ (build_ids a),
      storage_dyn_online_idem]
  | false =>
    show SWState.mk
        (updateRules (updateRules s.sessionRules [LIVE_REDIRECT, VOD_REDIRECT] [])
          [LIVE_REDIRECT, VOD_REDIRECT] [])
        (updateRules (updateRules (updateRules (updateRules s.dynamicRules
          [AMAZON_ADS_BLOCK] [adsBlockRule]) [LIVE_ALLOW, VOD_ALLOW]
          [liveAllowRule, vodAllowRule])
          [AMAZON_ADS_BLOCK] [adsBlockRule]) [LIVE_ALLOW, VOD_ALLOW]
          [liveAllowRule, vodAllowRule])
        (some false)
      = SWState.mk
        (updateRules s.sessionRules [LIVE_REDIRECT, VOD_REDIRECT] [])
        (updateRules (updateRules s.dynamicRules [AMAZON_ADS_BLOCK] [adsBlockRule])
          [LIVE_ALLOW, VOD_ALLOW] [liveAllowRule, vodAllowRule])
        (some false)
    rw [updateRules_remove_twice, storage_dyn_offline_idem]

theorem iterate_of_idem {f : SWState → SWState} (hf : ∀ s, f (f s) = f s) :
    ∀ (n : Nat) (s : SWState), f^[n + 1] s = f s := by
  intro n
  induction n with
  | zero => intro s; rfl
  | succ m ih =>
    intro s
    rw [Function.iterate_succ_apply', ih, hf]

/-- Claim C7: the reconcile is idempotent — for a fixed observed health
and a fixed stored base address, running any number of further reconciles
after the first leaves the installed rule lists (session redirects,
allow-bypass rules, ad-block rule) and the held `lastRelayOnline` exactly
as after the first run, because every install is a fixed-id
remove-then-add replace. -/
theorem reconcile_idempotent :
    (∀ (a : String) (online : Bool) (n : Nat) (s : SWState),
      (fun st => (alarmReconcile (ConfigRead.found a) online st).1)^[n + 1] s
        = (alarmReconcile (ConfigRead.found a) online s).1)
  ∧ (∀ (a : String) (online : Bool) (n : Nat) (s : SWState),
      (fun st => (applyRulesFromStorage (ConfigRead.found a) online st).1)^[n + 1] s
        = (applyRulesFromStorage (ConfigRead.found a) online s).1)
  ∧ (∀ (online : Bool) (n : Nat) (s : SWState),
      (fun st => (alarmReconcile ConfigRead.absent online st).1)^[n + 1] s
        = (alarmReconcile ConfigRead.absent online s).1)
  ∧ (∀ (online : Bool) (n : Nat) (s : SWState),
      (fun st => (applyRulesFromStorage ConfigRead.absent online st).1)^[n + 1] s
        = (applyRulesFromStorage ConfigRead.absent online s).1) := by
  refine ⟨?_, ?_, ?_, ?_⟩
  · intro a online n s
    exact iterate_of_idem (alarm_step_idem a online) n s
  · intro a online n s
    exact iterate_of_idem (storage_step_idem a online) n s
  · intro online n s
    exact iterate_of_idem (alarm_step_idem DEFAULT_ADDRESS online) n s
  · intro online n s
    exact iterate_of_idem (storage_step_idem DEFAULT_ADDRESS online) n s

/-! ### Intermediate rule states during one reconcile -/

/-- No route ever has both categories active in this state. -/
def noBoth (s : SWState) : Prop :=
  ∀ r : Route, ¬(redirectActive s r = true ∧ allowActive s r = true)

theorem redirectActive_remove (s : SWState) (r : Route) :
    redirectActive (removeRedirectSessionRules s) r = false := by
  show hasRule (updateRules s.sessionRules [LIVE_REDIRECT, VOD_REDIRECT] [])
      (redirectRuleId r) = false
  rw [hasRule_updateRules_removed _ _ (by cases r <;> rfl)]
  rfl

theorem allowActive_setAllow_false (s : SWState) (r : Route) :
    allowActive (setAllowBypassRules false s) r = false := by
  show hasRule (updateRules s.dynamicRules [LIVE_ALLOW, VOD_ALLOW] [])
      (allowRuleId r) = false
  rw [hasRule_updateRules_removed _ _ (by cases r <;> rfl)]
  rfl

theorem allowActive_ads (s : SWState) (r : Route) :
    allowActive (addOrUpdateAdsBlockDynamicRule s) r = allowActive s r := by
  show hasRule (updateRules s.dynamicRules [AMAZON_ADS_BLOCK] [adsBlockRule])
      (allowRuleId r) = _
  rw [hasRule_updateRules_kept _ _ (by cases r <;> rfl)]
  have h1 : hasRule [adsBlockRule] (allowRuleId r) = false := by cases r <;> rfl
  rw [h1, Bool.or_false]
  rfl

theorem noBoth_applyTrace (online : Bool) (addr : String) (s0 : SWState)
    (hred : ∀ r, redirectActive s0 r = false) :
    ∀ s' ∈ applyOnlineStateTrace online addr s0, noBoth s' := by
  cases online with
  | true =>
    intro s' hs'
    rw [show applyOnlineStateTrace true addr s0
        = [setAllowBypassRules false s0,
           { addRedirectSessionRules addr (setAllowBypassRules false s0) with
             lastRelayOnline := some true }] from rfl] at hs'
    simp only [List.mem_cons, List.not_mem_nil, or_false] at hs'
    rcases hs' with rfl | rfl
    · intro r hc
      rw [allowActive_setAllow_false s0 r] at hc
      exact absurd hc.2 Bool.false_ne_true
    · intro r hc
      have hall : allowActive
          { addRedirectSessionRules addr (setAllowBypassRules false s0) with
            lastRelayOnline := some true } r = false :=
        allowActive_setAllow_false s0 r
      rw [hall] at hc
      exact absurd hc.2 Bool.false_ne_true
  | false =>
    intro s' hs'
    rw [show applyOnlineStateTrace false addr s0
        = [{ setAllowBypassRules true s0 with lastRelayOnline := some false }]
        from rfl] at hs'
    simp only [List.mem_cons, List.not_mem_nil, or_false] at hs'
    subst hs'
    intro r hc
    have hr : redirectActive
        { setAllowBypassRules true s0 with lastRelayOnline := some false } r
          = false := hred r
    rw [hr] at hc
    exact absurd hc.1 Bool.false_ne_true

theorem mem_of_getElemOpt {l : List SWState} {n : Nat} {a : SWState}
    (h : l[n]? = some a) : a ∈ l := by
  induction l generalizing n with
  | nil => simp at h
  | cons x xs ih =>
    cases n with
    | zero =>
      simp only [List.getElem?_cons_zero, Option.some.injEq] at h
      rw [← h]
      exact List.mem_cons_self x xs
    | succ m =>
      simp only [List.getElem?_cons_succ] at h
      exact List.mem_cons_of_mem x (ih h)

/-- Claim C4 amended: within any single reconcile starting from a state
where no route has both categories active, no intermediate suspension
state ever has both the redirect and the allow-bypass rule of a route
active at once — but a window with neither category active does occur
(see the counterexample) between the session-redirect removal and the
install of the state-appropriate category, so the claim's "never zero
active categories" half is false. -/
theorem rule_install_window :
    ∀ (cfg : ConfigRead) (online : Bool) (s : SWState), noBoth s →
      (∀ (n : Nat) (s' : SWState),
        (alarmReconcileTrace cfg online s)[n]? = some s' → noBoth s')
    ∧ (∀ (n : Nat) (s' : SWState),
        (applyRulesFromStorageTrace cfg online s)[n]? = some s' → noBoth s')
    ∧ (alarmReconcileTrace cfg online s).head? = some s
    ∧ (alarmReconcileTrace cfg online s).getLast?
        = some ((alarmReconcile cfg online s).1)
    ∧ (applyRulesFromStorageTrace cfg online s).head? = some s
    ∧ (applyRulesFromStorageTrace cfg online s).getLast?
        = some ((applyRulesFromStorage cfg online s).1) := by
  intro cfg online s h
  refine ⟨?_, ?_, ?_, ?_, ?_, ?_⟩
  · intro n s' hn
    have hmem := mem_of_getElemOpt hn
    cases cfg with
    | failure =>
      simp only [alarmReconcileTrace, readAddress, List.mem_cons,
        List.not_mem_nil, or_false] at hmem
      rw [hmem]; exact h
    | absent =>
      simp only [alarmReconcileTrace, readAddress, List.mem_cons] at hmem
      rcases hmem with rfl | rfl | hmem
      · exact h
      · intro r hc
        rw [redirectActive_remove s r] at hc
        exact absurd hc.1 Bool.false_ne_true
      · exact noBoth_applyTrace online _ _ (redirectActive_remove s) s' hmem
    | found a =>
      simp only [alarmReconcileTrace, readAddress, List.mem_cons] at hmem
      rcases hmem with rfl | rfl | hmem
      · exact h
      · intro r hc
        rw [redirectActive_remove s r] at hc
        exact absurd hc.1 Bool.false_ne_true
      · exact noBoth_applyTrace online _ _ (redirectActive_remove s) s' hmem
  · intro n s' hn
    have hmem := mem_of_getElemOpt hn
    cases cfg with
    | failure =>
      simp only [applyRulesFromStorageTrace, readAddress, List.mem_cons,
        List.not_mem_nil, or_false] at hmem
      rw [hmem]; exact h
    | absent =>
      simp only [applyRulesFromStorageTrace, readAddress, List.mem_cons] at hmem
      rcases hmem with rfl | rfl | rfl | hmem
      · exact h
      · intro r hc
        rw [allowActive_ads s r] at hc
        exact h r ⟨hc.1, hc.2⟩
      · intro r hc
        rw [redirectActive_remove _ r] at hc
        exact absurd hc.1 Bool.false_ne_true
      · exact noBoth_applyTrace online _ _
          (redirectActive_remove (addOrUpdateAdsBlockDynamicRule s)) s' hmem
    | found a =>
      simp only [applyRulesFromStorageTrace, readAddress, List.mem_cons] at hmem
      rcases hmem with rfl | rfl | rfl | hmem
      · exact h
      · intro r hc
        rw [allowActive_ads s r] at hc
        exact h r ⟨hc.1, hc.2⟩
      · intro r hc
        rw [redirectActive_remove _ r] at hc
        exact absurd hc.1 Bool.false_ne_true
      · exact noBoth_applyTrace online _ _
          (redirectActive_remove (addOrUpdateAdsBlockDynamicRule s)) s' hmem
  · cases cfg <;> cases online <;> rfl
  · cases cfg <;> cases online <;> rfl
  · cases cfg <;> cases online <;> rfl
  · cases cfg <;> cases online <;> rfl

/-- A steady Online state: the redirect rules and the ad-block rule are
installed, nothing else. -/
def steadyOnlineState : SWState :=
  { sessionRules := buildRedirectSessionRules DEFAULT_ADDRESS,
    dynamicRules := [adsBlockRule],
    lastRelayOnline := some true }

/-- Claim C4 counterexample: one reconcile from the steady Online state
passes through the suspension state right after
`removeRedirectSessionRules` — there the live route has neither the
redirect nor the allow-bypass rule active, although both the initial and
the final state of the reconcile have the redirect rule active. -/
theorem rule_install_window_cex :
    (alarmReconcileTrace ConfigRead.absent true steadyOnlineState)[1]?
      = some (removeRedirectSessionRules steadyOnlineState)
  ∧ redirectActive steadyOnlineState Route.live = true
  ∧ allowActive steadyOnlineState Route.live = false
  ∧ redirectActive (removeRedirectSessionRules steadyOnlineState) Route.live = false
  ∧ allowActive (removeRedirectSessionRules steadyOnlineState) Route.live = false
  ∧ redirectActive ((alarmReconcile ConfigRead.absent true steadyOnlineState).1)
      Route.live = true := by
  exact ⟨rfl, by decide, by decide, by decide, by decide, by decide⟩

/-- Witness for `rule_install_window` at a concrete input. -/
theorem rule_install_window_witness :
    ¬(redirectActive (removeRedirectSessionRules initialState) Route.live = true
      ∧ allowActive (removeRedirectSessionRules initialState) Route.live = true) :=
  (rule_install_window ConfigRead.absent true initialState
      (fun r => by cases r <;> decide)).1
    1 (removeRedirectSessionRules initialState) rfl Route.live

/-! ### Address normalisation -/

theorem schemeCI_ends_colon (x : List Char) (h : Rx.rmatch schemeRegexCI x = true) :
    x.getLast? = some ':' := by
  unfold schemeRegexCI at h
  rw [cat_rmatch_iff] at h
  obtain ⟨t1, u1, rfl, -, h⟩ := h
  rw [cat_rmatch_iff] at h
  obtain ⟨t2, u2, rfl, -, h⟩ := h
  rw [cat_rmatch_iff] at h
  obtain ⟨t3, u3, rfl, -, h⟩ := h
  rw [cat_rmatch_iff] at h
  obtain ⟨t4, u4, rfl, -, h⟩ := h
  rw [cat_rmatch_iff] at h
  obtain ⟨t5, u5, rfl, -, h⟩ := h
  obtain ⟨c, rfl, hc⟩ := (cls_rmatch_iff _ _).mp h
  rw [show c = ':' from eq_of_beq hc]
  simp only [← List.append_assoc]
  exact List.getLast?_concat _

theorem normalizeBase_has_scheme (inp : Option String) :
    Rx.rmatchPre schemeRegexCI (normalizeBase inp).data = true := by
  have hpre : Rx.rmatchPre schemeRegexCI (withScheme (resolveInput inp)).data = true := by
    unfold withScheme
    by_cases ht : Rx.rmatchPre schemeRegexCI (resolveInput inp).data = true
    · rw [if_pos ht]; exact ht
    · rw [if_neg ht]
      rw [rmatchPre_iff]
      refine ⟨"http:".data, "//".data ++ (resolveInput inp).data, ?_, by decide⟩
      rw [String.data_append]
      rfl
  unfold normalizeBase stripTrailingSlash
  by_cases hsl : (withScheme (resolveInput inp)).data.getLast? = some '/'
  · rw [if_pos hsl]
    obtain ⟨t, u, hsplit, hm⟩ := (rmatchPre_iff _ _).mp hpre
    have ht : t.getLast? = some ':' := schemeCI_ends_colon t hm
    cases u with
    | nil =>
      rw [List.append_nil] at hsplit
      rw [hsplit, ht] at hsl
      exact absurd (Option.some.injEq _ _ ▸ hsl) (by decide)
    | cons c cs =>
      rw [rmatchPre_iff]
      refine ⟨t, (c :: cs).dropLast, ?_, hm⟩
      show (withScheme (resolveInput inp)).data.dropLast = _
      rw [hsplit, List.dropLast_append_cons]
  · rw [if_neg hsl]
    exact hpre

/-- Claim C8 counterexample: `normalizeBase` removes only one trailing
slash, so an input ending in a double slash yields an output that still
ends in a slash, refuting "has no trailing slash" for every input. -/
theorem normalizeBase_cex :
    normalizeBase (some "http://example.com//") = "http://example.com/"
  ∧ (normalizeBase (some "http://example.com//")).data.getLast? = some '/' := by
  exact ⟨by decide, by decide⟩

/-- Claim C8 amended: the normalized base address always passes the
case-insensitive `http`/`https` scheme test (`http://` is prepended when
the input lacks a scheme); exactly one trailing slash is stripped, so the
result has no trailing slash whenever the scheme-qualified input does not
end in a double slash; `example.com:9595` normalizes to
`http://example.com:9595`; an absent or empty input yields the normalized
default local address. -/
theorem normalizeBase_spec :
    (∀ inp : Option String,
      Rx.rmatchPre schemeRegexCI (normalizeBase inp).data = true)
  ∧ normalizeBase (some "example.com:9595") = "http://example.com:9595"
  ∧ normalizeBase none = "http://localhost:9595"
  ∧ normalizeBase (some "") = "http://localhost:9595"
  ∧ (∀ inp : Option String,
      ((withScheme (resolveInput inp)).data.getLast? = some '/' →
        (withScheme (resolveInput inp)).data.dropLast.getLast? ≠ some '/') →
      (normalizeBase inp).data.getLast? ≠ some '/') := by
  refine ⟨normalizeBase_has_scheme, by decide, by decide, by decide, ?_⟩
  intro inp h
  unfold normalizeBase stripTrailingSlash
  by_cases hsl : (withScheme (resolveInput inp)).data.getLast? = some '/'
  · rw [if_pos hsl]
    exact h hsl
  · rw [if_neg hsl]
    exact hsl

/-- Witness for `normalizeBase_spec` at a concrete input. -/
theorem normalizeBase_spec_witness :
    (normalizeBase (some "example.com:9595/")).data.getLast? ≠ some '/' :=
  normalizeBase_spec.2.2.2.2 (some "example.com:9595/") (by decide)

/-! ### The tab-update re-notification -/

/-- Claim C10 counterexample: a completed load of an usher URL while
`lastRelayOnline` is `false` passes `isTwitchNavigation`, so the listener
invokes `sendOfflineMessage` — but the dispatcher's own twitch.tv guard
rejects the usher URL and nothing is sent to that tab, refuting "the
fixed offline payload is sent to that tab" for usher URLs. -/
theorem tab_resend_cex :
    isTwitchNavigation "https://usher.ttvnw.net/vod/1.m3u8" = true
  ∧ tabsOnUpdatedHandler "complete" 7
      (some "https://usher.ttvnw.net/vod/1.m3u8") (some false) = none := by
  exact ⟨by decide, by decide⟩

/-- Claim C10 amended: on a completed tab load, the fixed offline payload
is re-sent to that tab exactly when the tab URL passes the twitch.tv test
of `sendOfflineMessage` and the held `lastRelayOnline` is `false`; for an
usher URL the listener fires but the dispatcher's guard suppresses the
delivery, and a non-`complete` status never sends. -/
theorem tab_resend_spec :
    ∀ (tabId : Nat) (url : String) (last : Option Bool),
      (tabsOnUpdatedHandler "complete" tabId (some url) last
          = some (tabId, offlinePayloadMessage)
        ↔ (Rx.rmatchPre twitchTabRegexFilter url.data = true ∧ last = some false))
    ∧ (∀ status : String, status ≠ "complete" →
        tabsOnUpdatedHandler status tabId (some url) last = none) := by
  intro tabId url last
  constructor
  · unfold tabsOnUpdatedHandler sendOfflineMessageTargeted isTwitchNavigation
    rw [if_neg (fun hc => hc rfl)]
    by_cases htw : Rx.rmatchPre twitchTabRegexFilter url.data = true <;>
      by_cases hl : last = some false <;>
        cases hu : Rx.rmatchPre usherNavRegexFilter url.data <;>
          simp [htw, hl, hu, beq_iff_eq, Bool.not_eq_true] at *
  · intro status hs
    unfold tabsOnUpdatedHandler
    rw [if_pos hs]

/-- Witness for `tab_resend_spec` at a concrete input. -/
theorem tab_resend_spec_witness :
    tabsOnUpdatedHandler "loading" 3 (some "https://www.twitch.tv/x") (some false)
      = none :=
  (tab_resend_spec 3 "https://www.twitch.tv/x" (some false)).2 "loading" (by decide)

/-! ### Characterisation of the ad-block filter -/

theorem notDot_iff (c : Char) : notDot c = true ↔ c ≠ '.' := by
  simp [notDot]

theorem notSlashQm_iff (c : Char) : notSlashQm c = true ↔ (c ≠ '/' ∧ c ≠ '?') := by
  simp [notSlashQm, not_or]

theorem anyNotNL_iff (c : Char) : anyNotNL c = true ↔ c ≠ '\n' := by
  simp [anyNotNL]

/-- The URLs the ad-block filter accepts: an `http`/`https` scheme, then
either the bare host `amazon-adsystem.com` or exactly one non-empty
dot-free label in front of it, then a slash and anything. -/
def AdsUrlForm (u : List Char) : Prop :=
  ∃ (sch lab rest : List Char),
    (sch = ("http://").data ∨ sch = ("https://").data) ∧
    (u = sch ++ (("amazon-adsystem.com/").data ++ rest)
      ∨ (u = sch ++ (lab ++ ('.' :: (("amazon-adsystem.com/").data ++ rest)))
          ∧ lab ≠ [] ∧ '.' ∉ lab))

theorem adsShape :
    adsRegexFilter = Rx.cat (Rx.strL ("http").data)
      (Rx.cat (Rx.opt (Rx.chr 's'))
        (Rx.cat (Rx.strL ("://").data)
          (Rx.cat (Rx.opt (Rx.cat (Rx.plus1 notDot) (Rx.chr '.')))
            (Rx.cat (Rx.strL ("amazon-adsystem.com/").data)
              (Rx.star (Rx.cls anyNotNL)))))) := rfl

theorem ads_match_label (pre : List Char)
    (hpre : pre = ("http://").data ∨ pre = ("https://").data)
    (lab : List Char) (hne : lab ≠ []) (hdot : '.' ∉ lab) :
    Rx.rmatch adsRegexFilter
      (pre ++ (lab ++ ('.' :: ("amazon-adsystem.com/").data))) = true := by
  have hlab : Rx.rmatch (Rx.cat (Rx.plus1 notDot) (Rx.chr '.')) (lab ++ ['.']) = true := by
    rw [cat_rmatch_iff]
    refine ⟨lab, ['.'], rfl, ?_, ?_⟩
    · rw [plus1_rmatch_iff]
      refine ⟨hne, fun c hc => ?_⟩
      rw [notDot_iff]
      intro hceq
      exact hdot (hceq ▸ hc)
    · exact (cls_rmatch_iff _ _).mpr ⟨'.', rfl, by decide⟩
  have htail : Rx.rmatch (Rx.cat (Rx.opt (Rx.cat (Rx.plus1 notDot) (Rx.chr '.')))
      (Rx.cat (Rx.strL ("amazon-adsystem.com/").data)
        (Rx.star (Rx.cls anyNotNL))))
      ((lab ++ ['.']) ++ ("amazon-adsystem.com/").data) = true := by
    rw [cat_rmatch_iff]
    refine ⟨lab ++ ['.'], ("amazon-adsystem.com/").data, rfl, ?_, ?_⟩
    · rw [opt_rmatch_iff]
      exact Or.inr hlab
    · rw [cat_strL_rmatch_iff]
      exact ⟨[], (List.append_nil _).symm, rfl⟩
  rw [adsShape]
  rcases hpre with rfl | rfl
  · rw [cat_strL_rmatch_iff]
    refine ⟨("://").data ++ ((lab ++ ['.']) ++ ("amazon-adsystem.com/").data), ?_, ?_⟩
    · simp only [List.append_assoc]
      rfl
    · rw [cat_rmatch_iff]
      refine ⟨[], _, rfl, (opt_rmatch_iff _ _).mpr (Or.inl rfl), ?_⟩
      rw [cat_strL_rmatch_iff]
      exact ⟨_, rfl, htail⟩
  · rw [cat_strL_rmatch_iff]
    refine ⟨('s' :: (("://").data ++ ((lab ++ ['.']) ++ ("amazon-adsystem.com/").data))), ?_, ?_⟩
    · simp only [List.append_assoc]
      rfl
    · rw [cat_rmatch_iff]
      refine ⟨['s'], _, rfl, (opt_rmatch_iff _ _).mpr
        (Or.inr ((cls_rmatch_iff _ _).mpr ⟨'s', rfl, by decide⟩)), ?_⟩
      rw [cat_strL_rmatch_iff]
      exact ⟨_, rfl, htail⟩

/-- Claim C6 amended: the ad-block rule matches exactly the URLs whose
host is `amazon-adsystem.com` itself or a single-label subdomain of it
(`x.amazon-adsystem.com`), over http and https; deeper subdomains such as
`a.b.amazon-adsystem.com` are not matched (see the counterexample). -/
theorem adsBlockRule_matches_iff :
    ∀ u : List Char, ruleMatches adsBlockRule u = true ↔ AdsUrlForm u := by
  intro u
  rw [show ruleMatches adsBlockRule u = Rx.rmatchPre adsRegexFilter u from rfl,
    rmatchPre_iff]
  constructor
  · rintro ⟨t, qq, rfl, hm⟩
    rw [adsShape, cat_strL_rmatch_iff] at hm
    obtain ⟨y1, rfl, hm⟩ := hm
    rw [cat_rmatch_iff] at hm
    obtain ⟨a, b, rfl, ha, hm⟩ := hm
    rw [opt_rmatch_iff] at ha
    rw [cat_strL_rmatch_iff] at hm
    obtain ⟨y2, rfl, hm⟩ := hm
    rw [cat_rmatch_iff] at hm
    obtain ⟨c, d, rfl, hc, hm⟩ := hm
    rw [opt_rmatch_iff] at hc
    rw [cat_strL_rmatch_iff] at hm
    obtain ⟨e, rfl, -⟩ := hm
    have ha' : a = [] ∨ a = ['s'] := by
      rcases ha with rfl | ha
      · exact Or.inl rfl
      · obtain ⟨ch, rfl, hch⟩ := (cls_rmatch_iff _ _).mp ha
        exact Or.inr (by rw [eq_of_beq hch])
    have hc' : c = [] ∨ ∃ lab, c = lab ++ ['.'] ∧ lab ≠ [] ∧ '.' ∉ lab := by
      rcases hc with rfl | hc
      · exact Or.inl rfl
      · rw [cat_rmatch_iff] at hc
        obtain ⟨l1, l2, rfl, h1, h2⟩ := hc
        obtain ⟨ch, rfl, hch⟩ := (cls_rmatch_iff _ _).mp h2
        rw [plus1_rmatch_iff] at h1
        refine Or.inr ⟨l1, by rw [eq_of_beq hch], h1.1, fun hmem => ?_⟩
        have := (notDot_iff '.').mp (h1.2 '.' hmem)
        exact this rfl
    rcases ha' with rfl | rfl <;> rcases hc' with rfl | ⟨lab, rfl, hne, hdot⟩
    · exact ⟨("http://").data, [], e ++ qq, Or.inl rfl,
        Or.inl (by simp only [List.append_assoc, List.nil_append]; rfl)⟩
    · exact ⟨("http://").data, lab, e ++ qq, Or.inl rfl,
        Or.inr ⟨by simp only [List.append_assoc, List.nil_append]; rfl, hne, hdot⟩⟩
    · exact ⟨("https://").data, [], e ++ qq, Or.inr rfl,
        Or.inl (by simp only [List.append_assoc, List.nil_append]; rfl)⟩
    · exact ⟨("https://").data, lab, e ++ qq, Or.inr rfl,
        Or.inr ⟨by simp only [List.append_assoc, List.nil_append]; rfl, hne, hdot⟩⟩
  · rintro ⟨sch, lab, rest, hsch, hform⟩
    rcases hform with hform | ⟨hform, hne, hdot⟩
    · rcases hsch with rfl | rfl
      · exact ⟨("http://amazon-adsystem.com/").data, rest,
          by rw [hform]; rfl, by decide⟩
      · exact ⟨("https://amazon-adsystem.com/").data, rest,
          by rw [hform]; rfl, by decide⟩
    · refine ⟨sch ++ (lab ++ ('.' :: ("amazon-adsystem.com/").data)), rest, ?_, ?_⟩
      · rw [hform]
        simp only [List.append_assoc, List.cons_append]
      · exact ads_match_label sch hsch lab hne hdot

/-- Claim C6 counterexample: a request on the nested subdomain
`a.b.amazon-adsystem.com` is not matched by the ad-block rule, over
either scheme, refuting "any subdomain at any nesting depth". -/
theorem adsBlockRule_nested_cex :
    ruleMatches adsBlockRule ("https://a.b.amazon-adsystem.com/ad").data = false
  ∧ ruleMatches adsBlockRule ("http://a.b.amazon-adsystem.com/ad").data = false
  ∧ ruleMatches adsBlockRule ("https://a.amazon-adsystem.com/ad").data = true
  ∧ ruleMatches adsBlockRule ("http://amazon-adsystem.com/ad").data = true := by
  exact ⟨by decide, by decide, by decide, by decide⟩

/-! ### Characterisation of the redirect filters -/

/-- The optional query supported by `(\?.*)?` : empty, or a question mark
followed by newline-free text. -/
def QueryPart (q : List Char) : Prop :=
  q = [] ∨ ∃ t, q = '?' :: t ∧ ∀ c ∈ t, c ≠ '\n'

/-- Decomposition of a URL matched by the live redirect filter. -/
def LiveUrlParts (u id q : List Char) : Prop :=
  u = ("https://usher.ttvnw.net/api/channel/hls/").data ++ (id ++ ((".m3u8").data ++ q))
  ∧ id ≠ [] ∧ (∀ c ∈ id, c ≠ '/' ∧ c ≠ '?') ∧ QueryPart q

/-- Decomposition of a URL matched by the vod redirect filter. -/
def VodUrlParts (u id q : List Char) : Prop :=
  u = ("https://usher.ttvnw.net/vod/").data ++ (id ++ ((".m3u8").data ++ q))
  ∧ id ≠ [] ∧ (∀ c ∈ id, c ≠ '/' ∧ c ≠ '?') ∧ QueryPart q

theorem hlsBody_rmatch_iff (y : List Char) :
    Rx.rmatch (Rx.cat (Rx.plus1 notSlashQm)
        (Rx.cat (Rx.strL ((".m3u8").data)) queryTail)) y = true
      ↔ ∃ id q, y = id ++ ((".m3u8").data ++ q) ∧ id ≠ []
          ∧ (∀ c ∈ id, c ≠ '/' ∧ c ≠ '?') ∧ QueryPart q := by
  constructor
  · intro hm
    rw [cat_rmatch_iff] at hm
    obtain ⟨id, z, rfl, h1, hm⟩ := hm
    rw [plus1_rmatch_iff] at h1
    rw [cat_strL_rmatch_iff] at hm
    obtain ⟨q, rfl, hq⟩ := hm
    refine ⟨id, q, rfl, h1.1, fun c hc => (notSlashQm_iff c).mp (h1.2 c hc), ?_⟩
    rw [show queryTail
        = Rx.opt (Rx.cat (Rx.chr '?') (Rx.star (Rx.cls anyNotNL))) from rfl,
      opt_rmatch_iff] at hq
    rcases hq with rfl | hq
    · exact Or.inl rfl
    · rw [cat_rmatch_iff] at hq
      obtain ⟨l1, l2, rfl, hl1, hl2⟩ := hq
      obtain ⟨ch, rfl, hch⟩ := (cls_rmatch_iff _ _).mp hl1
      rw [star_cls_rmatch_iff] at hl2
      exact Or.inr ⟨l2, by rw [eq_of_beq hch]; rfl,
        fun c hc => (anyNotNL_iff c).mp (hl2 c hc)⟩
  · rintro ⟨id, q, rfl, hne, hclass, hqp⟩
    rw [cat_rmatch_iff]
    refine ⟨id, (".m3u8").data ++ q, rfl, ?_, ?_⟩
    · rw [plus1_rmatch_iff]
      exact ⟨hne, fun c hc => (notSlashQm_iff c).mpr (hclass c hc)⟩
    · rw [cat_strL_rmatch_iff]
      refine ⟨q, rfl, ?_⟩
      rw [show queryTail
          = Rx.opt (Rx.cat (Rx.chr '?') (Rx.star (Rx.cls anyNotNL))) from rfl,
        opt_rmatch_iff]
      rcases hqp with rfl | ⟨t, rfl, ht⟩
      · exact Or.inl rfl
      · refine Or.inr ?_
        rw [cat_rmatch_iff]
        refine ⟨['?'], t, rfl, (cls_rmatch_iff _ _).mpr ⟨'?', rfl, by decide⟩, ?_⟩
        rw [star_cls_rmatch_iff]
        exact fun c hc => (anyNotNL_iff c).mpr (ht c hc)

theorem live_rmatch_iff (u : List Char) :
    Rx.rmatch liveRegexFilter u = true ↔ ∃ id q, LiveUrlParts u id q := by
  rw [show liveRegexFilter
      = Rx.cat (Rx.strL (("https://usher.ttvnw.net/api/channel/hls/").data))
          (Rx.cat (Rx.plus1 notSlashQm)
            (Rx.cat (Rx.strL ((".m3u8").data)) queryTail)) from rfl,
    cat_strL_rmatch_iff]
  constructor
  · rintro ⟨y, rfl, hy⟩
    obtain ⟨id, q, rfl, h⟩ := (hlsBody_rmatch_iff y).mp hy
    exact ⟨id, q, rfl, h⟩
  · rintro ⟨id, q, hu, hne, hcl, hqp⟩
    exact ⟨id ++ ((".m3u8").data ++ q), hu,
      (hlsBody_rmatch_iff _).mpr ⟨id, q, rfl, hne, hcl, hqp⟩⟩

theorem vod_rmatch_iff (u : List Char) :
    Rx.rmatch vodRegexFilter u = true ↔ ∃ id q, VodUrlParts u id q := by
  rw [show vodRegexFilter
      = Rx.cat (Rx.strL (("https://usher.ttvnw.net/vod/").data))
          (Rx.cat (Rx.plus1 notSlashQm)
            (Rx.cat (Rx.strL ((".m3u8").data)) queryTail)) from rfl,
    cat_strL_rmatch_iff]
  constructor
  · rintro ⟨y, rfl, hy⟩
    obtain ⟨id, q, rfl, h⟩ := (hlsBody_rmatch_iff y).mp hy
    exact ⟨id, q, rfl, h⟩
  · rintro ⟨id, q, hu, hne, hcl, hqp⟩
    exact ⟨id ++ ((".m3u8").data ++ q), hu,
      (hlsBody_rmatch_iff _).mpr ⟨id, q, rfl, hne, hcl, hqp⟩⟩

theorem split_first_mark (t t' : List Char) :
    ∀ A B : List Char, '?' ∉ A → '?' ∉ B →
      A ++ '?' :: t = B ++ '?' :: t' → A = B ∧ t = t' := by
  intro A
  induction A with
  | nil =>
    intro B hA hB h
    cases B with
    | nil => simpa using h
    | cons b B' =>
      rw [List.nil_append, List.cons_append] at h
      obtain ⟨h1, -⟩ := List.cons_eq_cons.mp h
      exact absurd (by rw [h1]; exact List.mem_cons_self b B') hB
  | cons a A' ih =>
    intro B hA hB h
    cases B with
    | nil =>
      rw [List.nil_append, List.cons_append] at h
      obtain ⟨h1, -⟩ := List.cons_eq_cons.mp h
      exact absurd (by rw [← h1]; exact List.mem_cons_self a A') hA
    | cons b B' =>
      rw [List.cons_append, List.cons_append] at h
      obtain ⟨rfl, h2⟩ := List.cons_eq_cons.mp h
      have hA' : '?' ∉ A' := fun hm => hA (List.mem_cons_of_mem a hm)
      have hB' : '?' ∉ B' := fun hm => hB (List.mem_cons_of_mem a hm)
      obtain ⟨rfl, rfl⟩ := ih B' hA' hB' h2
      exact ⟨rfl, rfl⟩

theorem body_unique (id q id' q' : List Char)
    (hcl : ∀ c ∈ id, c ≠ '/' ∧ c ≠ '?') (hqp : QueryPart q)
    (hclb : ∀ c ∈ id', c ≠ '/' ∧ c ≠ '?') (hqp' : QueryPart q')
    (heq : id ++ ((".m3u8").data ++ q) = id' ++ ((".m3u8").data ++ q')) :
    id = id' ∧ q = q' := by
  have hnoq : '?' ∉ id ++ (".m3u8").data := by
    intro hm
    rcases List.mem_append.mp hm with hm | hm
    · exact (hcl '?' hm).2 rfl
    · exact absurd hm (by decide)
  have hnoq' : '?' ∉ id' ++ (".m3u8").data := by
    intro hm
    rcases List.mem_append.mp hm with hm | hm
    · exact (hclb '?' hm).2 rfl
    · exact absurd hm (by decide)
  rcases hqp with rfl | ⟨t, rfl, -⟩ <;> rcases hqp' with rfl | ⟨t', rfl, -⟩
  · rw [List.append_nil] at heq
    exact ⟨List.append_left_injective _ heq, rfl⟩
  · exfalso
    have hin : '?' ∈ id' ++ ((".m3u8").data ++ '?' :: t') :=
      List.mem_append.mpr (Or.inr (List.mem_append.mpr
        (Or.inr (List.mem_cons_self _ _))))
    rw [← heq] at hin
    rw [List.append_nil, List.mem_append] at hin
    rcases hin with hin | hin
    · exact (hcl '?' hin).2 rfl
    · exact absurd hin (by decide)
  · exfalso
    have hin : '?' ∈ id ++ ((".m3u8").data ++ '?' :: t) :=
      List.mem_append.mpr (Or.inr (List.mem_append.mpr
        (Or.inr (List.mem_cons_self _ _))))
    rw [heq] at hin
    rw [List.append_nil, List.mem_append] at hin
    rcases hin with hin | hin
    · exact (hclb '?' hin).2 rfl
    · exact absurd hin (by decide)
  · rw [← List.append_assoc, ← List.append_assoc] at heq
    obtain ⟨hAB, rfl⟩ := split_first_mark t t' _ _ hnoq hnoq' heq
    exact ⟨List.append_left_injective _ hAB, rfl⟩

theorem applySubst2_cons_ne (c : Char) (hc : c ≠ '\\') (l g1 g2 : List Char) :
    applySubst2 (c :: l) g1 g2 = c :: applySubst2 l g1 g2 := by
  rw [applySubst2.eq_def]
  split
  · rename_i heq
    exact absurd heq (by simp)
  · rename_i rest heq
    obtain ⟨h1, -⟩ := List.cons_eq_cons.mp heq
    exact absurd h1 hc
  · rename_i rest heq
    obtain ⟨h1, -⟩ := List.cons_eq_cons.mp heq
    exact absurd h1 hc
  · rename_i c' rest hn1 hn2 heq
    obtain ⟨h1, h2⟩ := List.cons_eq_cons.mp heq
    rw [h1, h2]

theorem applySubst2_append_no_bs (base l g1 g2 : List Char)
    (h : ('\\' : Char) ∉ base) :
    applySubst2 (base ++ l) g1 g2 = base ++ applySubst2 l g1 g2 := by
  induction base with
  | nil => rfl
  | cons c cs ih =>
    have hc : c ≠ '\\' := fun hh => h (hh ▸ List.mem_cons_self c cs)
    rw [List.cons_append, applySubst2_cons_ne c hc,
      ih (fun hm => h (List.mem_cons_of_mem c hm)), List.cons_append]

theorem applySubst2_live_template (base id q : List Char)
    (h : ('\\' : Char) ∉ base) :
    applySubst2 (base ++ ("/live/\\1\\2").data) id q
      = base ++ (("/live/").data ++ (id ++ q)) := by
  rw [applySubst2_append_no_bs base _ id q h]
  rw [show applySubst2 (("/live/\\1\\2").data) id q
      = ("/live/").data ++ (id ++ (q ++ [])) from rfl, List.append_nil]

theorem applySubst2_vod_template (base id q : List Char)
    (h : ('\\' : Char) ∉ base) :
    applySubst2 (base ++ ("/vod/\\1\\2").data) id q
      = base ++ (("/vod/").data ++ (id ++ q)) := by
  rw [applySubst2_append_no_bs base _ id q h]
  rw [show applySubst2 (("/vod/\\1\\2").data) id q
      = ("/vod/").data ++ (id ++ (q ++ [])) from rfl, List.append_nil]

/-- Claim C9: the two session redirect rules match exactly the URLs
`https://usher.ttvnw.net/api/channel/hls/<id>.m3u8[?query]` (live) and
`https://usher.ttvnw.net/vod/<id>.m3u8[?query]` (vod); the `<id>`/query
decomposition of a matched URL is unique, and substituting the captured
id and query into the rules' `regexSubstitution` templates
`<base>/live/\1\2` and `<base>/vod/\1\2` yields
`<base>/live/<id><query>` and `<base>/vod/<id><query>` — id and query
carried over verbatim. -/
theorem redirect_rules_semantics :
    (∀ (a : String) (u : List Char),
      (buildRedirectSessionRules a).map (fun rule => ruleMatches rule u)
        = [Rx.rmatch liveRegexFilter u, Rx.rmatch vodRegexFilter u])
  ∧ (∀ a : String, (buildRedirectSessionRules a).map DNRRule.action
      = [RuleAction.redirect (normalizeBase (some a) ++ "/live/\\1\\2"),
         RuleAction.redirect (normalizeBase (some a) ++ "/vod/\\1\\2")])
  ∧ (∀ u : List Char,
      Rx.rmatch liveRegexFilter u = true ↔ ∃ id q, LiveUrlParts u id q)
  ∧ (∀ u : List Char,
      Rx.rmatch vodRegexFilter u = true ↔ ∃ id q, VodUrlParts u id q)
  ∧ (∀ (u id q id' q' : List Char),
      LiveUrlParts u id q → LiveUrlParts u id' q' → id = id' ∧ q = q')
  ∧ (∀ (u id q id' q' : List Char),
      VodUrlParts u id q → VodUrlParts u id' q' → id = id' ∧ q = q')
  ∧ (∀ (base id q : List Char), ('\\' : Char) ∉ base →
      applySubst2 (base ++ ("/live/\\1\\2").data) id q
        = base ++ (("/live/").data ++ (id ++ q)))
  ∧ (∀ (base id q : List Char), ('\\' : Char) ∉ base →
      applySubst2 (base ++ ("/vod/\\1\\2").data) id q
        = base ++ (("/vod/").data ++ (id ++ q))) := by
  refine ⟨fun a u => rfl, fun a => rfl, live_rmatch_iff, vod_rmatch_iff,
    ?_, ?_, applySubst2_live_template, applySubst2_vod_template⟩
  · rintro u id q id' q' ⟨hu, -, hcl, hqp⟩ ⟨hu', -, hclb, hqp'⟩
    rw [hu] at hu'
    exact body_unique id q id' q' hcl hqp hclb hqp'
      (List.append_right_injective _ hu')
  · rintro u id q id' q' ⟨hu, -, hcl, hqp⟩ ⟨hu', -, hclb, hqp'⟩
    rw [hu] at hu'
    exact body_unique id q id' q' hcl hqp hclb hqp'
      (List.append_right_injective _ hu')

/-- Witness for `redirect_rules_semantics` at concrete inputs. -/
theorem redirect_rules_semantics_witness :
    applySubst2 (("http://localhost:9595").data ++ ("/live/\\1\\2").data)
        ("chan").data ("?sig=1").data
      = ("http://localhost:9595").data
          ++ (("/live/").data ++ (("chan").data ++ ("?sig=1").data)) :=
  redirect_rules_semantics.2.2.2.2.2.2.1 ("http://localhost:9595").data
    ("chan").data ("?sig=1").data (by decide)

end Luminous
